import Mathlib

/-!
Verification of `rs-game-of-life` against its specification.

The repository's source (`src/gol/models.rs`, `src/main.rs`,
`src/user_interface/grid.rs`, `src/user_interface/components.rs`) contains
the data scaffolding and TUI glue; the specification defines the
cellular-automaton engine that the data model implies but the snapshot
never implements.  Definitions below are embedded from the source where
source exists, and modelled from the specification's words where the
engine code is missing.
-/

namespace GoL

/-- Modelled from the spec: the simulation engine's Board is missing from
the source; per §3, a Board is a set of integer coordinates, each a live
cell, on an unbounded plane (set semantics, no duplicates). -/
abbrev Board := Finset (ℤ × ℤ)

/-- Modelled from the spec: the 8 Moore-neighborhood offsets used by the
(missing) neighbor-counting rule of §4.2. -/
def moore : List (ℤ × ℤ) :=
  [(-1, -1), (0, -1), (1, -1), (-1, 0), (1, 0), (-1, 1), (0, 1), (1, 1)]

/-- Modelled from the spec: the 8 Moore neighbors of a coordinate. -/
def neighbors (c : ℤ × ℤ) : Finset (ℤ × ℤ) :=
  (moore.map (fun d => (c.1 + d.1, c.2 + d.2))).toFinset

/-- Modelled from the spec: number of live neighbors of `c` among its 8
Moore neighbors, counted against the given (current) board. -/
def liveNeighbors (b : Board) (c : ℤ × ℤ) : ℕ :=
  ((neighbors c).filter (fun d => d ∈ b)).card

/-- Modelled from the spec: the candidate set of §4.2 — every live cell
together with its 8 neighbors, deduplicated. -/
def candidates (b : Board) : Board :=
  b ∪ b.biUnion neighbors

/-- Modelled from the spec: `step` is missing from the source; per §4.2 it
filters the candidate set by Conway's rule, counting neighbors against the
old board only, and assembles the survivors into a new Board. -/
def step (b : Board) : Board :=
  (candidates b).filter
    (fun c =>
      if c ∈ b then liveNeighbors b c = 2 ∨ liveNeighbors b c = 3
      else liveNeighbors b c = 3)

/-- Modelled from the spec: `is_alive` of §4.1 is set membership. -/
def is_alive (b : Board) (c : ℤ × ℤ) : Bool := c ∈ b

/-- Modelled from the spec: `set_alive` of §4.1 inserts the coordinate. -/
def set_alive (b : Board) (c : ℤ × ℤ) : Board := insert c b

/-- Modelled from the spec: `set_dead` of §4.1 removes the coordinate. -/
def set_dead (b : Board) (c : ℤ × ℤ) : Board := b.erase c

/-- Modelled from the spec: `toggle` of §4.1 flips membership of the
coordinate. -/
def toggle (b : Board) (c : ℤ × ℤ) : Board :=
  if c ∈ b then b.erase c else insert c b

/-- Modelled from the spec: the Simulation Engine state of §3 — current
Board plus a monotonically increasing generation counter starting at 0. -/
structure Engine where
  board : Board
  generation : ℕ
deriving DecidableEq

/-- Modelled from the spec: one generation advance of the engine — the
Board is wholesale-replaced by `step` and the counter increments. -/
def stepEngine (e : Engine) : Engine :=
  { board := step e.board, generation := e.generation + 1 }

/-- Modelled from the spec: `advance(engine, n)` of §4.2 applies `step` n
times as a sequential loop, incrementing the generation counter by n. -/
def advance (e : Engine) : ℕ → Engine
  | 0 => e
  | n + 1 => advance (stepEngine e) n

/-- Modelled from the spec: decimal digit value of a character of the
textual pattern representation. -/
def digitVal (ch : Char) : Option ℕ :=
  if ch.isDigit then some (ch.toNat - 48) else none

/-- Modelled from the spec: parse an unsigned decimal integer from the
characters of a token; fails on an empty or non-numeric token. -/
def parseNatChars (cs : List Char) : Option ℕ :=
  match cs with
  | [] => none
  | _ => cs.foldl
      (fun acc ch =>
        match acc, digitVal ch with
        | some n, some d => some (n * 10 + d)
        | _, _ => none)
      (some 0)

/-- Modelled from the spec: parse a signed decimal integer (coordinates
are signed — the plane is bidirectionally infinite). -/
def parseIntChars : List Char → Option ℤ
  | '-' :: rest => (parseNatChars rest).map (fun n => -(n : ℤ))
  | cs => (parseNatChars cs).map (fun n => (n : ℤ))

/-- Modelled from the spec: split a pattern line at its first comma. -/
def splitAtComma : List Char → Option (List Char × List Char)
  | [] => none
  | ch :: rest =>
      if ch = ',' then some ([], rest)
      else (splitAtComma rest).map (fun p => (ch :: p.1, p.2))

/-- Modelled from the spec: parse one `x,y` line of the newline-delimited
coordinate-list representation of §6; `none` marks a malformed line. -/
def parseLine (cs : List Char) : Option (ℤ × ℤ) :=
  match splitAtComma cs with
  | none => none
  | some (a, b) =>
      match parseIntChars a, parseIntChars b with
      | some x, some y => some (x, y)
      | _, _ => none

/-- Modelled from the spec: the `MalformedPattern` error of §7, identifying
the offending line by index and content. -/
structure MalformedPattern where
  lineNo : ℕ
  content : List Char
deriving DecidableEq

/-- Modelled from the spec: parse all lines starting at line index `i`,
failing on the first malformed line. -/
def parseLinesFrom (i : ℕ) : List (List Char) → Except MalformedPattern (List (ℤ × ℤ))
  | [] => .ok []
  | l :: rest =>
      match parseLine l with
      | none => .error ⟨i, l⟩
      | some c => (parseLinesFrom (i + 1) rest).map (fun cs => c :: cs)

/-- Modelled from the spec: validate the full external representation
before anything is replaced. -/
def parsePattern (input : List (List Char)) : Except MalformedPattern (List (ℤ × ℤ)) :=
  parseLinesFrom 0 input

/-- Modelled from the spec: `load_pattern` of §4.2 and §7 — on success the
Board is wholesale-replaced with exactly the given live coordinates and the
generation counter resets to 0; on a malformed representation the engine is
returned unchanged together with the `MalformedPattern` error (all-or-nothing). -/
def load_pattern (e : Engine) (input : List (List Char)) : Engine × Option MalformedPattern :=
  match parsePattern input with
  | .ok cs => ({ board := cs.toFinset, generation := 0 }, none)
  | .error m => (e, some m)

/-- The horizontal 3-cell line (blinker) of §8. -/
def lineBoard : Board := {((0 : ℤ), (0 : ℤ)), ((1 : ℤ), (0 : ℤ)), ((2 : ℤ), (0 : ℤ))}

/-- The vertical 3-cell line, the blinker's other phase. -/
def lineBoardVert : Board := {((1 : ℤ), (-1 : ℤ)), ((1 : ℤ), (0 : ℤ)), ((1 : ℤ), (1 : ℤ))}

end GoL

namespace MainSrc

/-- Embeds `Coordinate` of `src/main.rs` (a struct with `x: u64, y: u64`):
the components are unsigned 64-bit integers, modelled as naturals. -/
structure Coordinate where
  x : ℕ
  y : ℕ
deriving DecidableEq

/-- Embeds `Coordinate::new` of `src/main.rs`. -/
def Coordinate.new (x y : ℕ) : Coordinate := ⟨x, y⟩

/-- Embeds `MenuItem` of `src/main.rs` (three variants). -/
inductive MenuItem
  | Home
  | Preparation
  | Run
deriving DecidableEq, Fintype

/-- Embeds `impl From<MenuItem> for usize` of `src/main.rs`. -/
def menuItemToUsize : MenuItem → ℕ
  | .Preparation => 0
  | .Run => 1
  | .Home => 2

end MainSrc

namespace Components

/-- Embeds `MenuItem` of `src/user_interface/components.rs` (four
variants, adding `Quit`). -/
inductive MenuItem
  | Home
  | Preparation
  | Run
  | Quit
deriving DecidableEq, Fintype

/-- Embeds `impl From<MenuItem> for usize` of
`src/user_interface/components.rs`. -/
def menuItemToUsize : MenuItem → ℕ
  | .Preparation => 0
  | .Run => 1
  | .Home => 2
  | .Quit => 3

/-- Embeds crossterm's `KeyCode` enum: the `Char` variant carries the
pressed character; the remaining variants are other keys, all handled by
the catch-all arm of `event_controller`. -/
inductive KeyCode
  | Backspace
  | Enter
  | Left
  | Right
  | Up
  | Down
  | Home
  | End
  | PageUp
  | PageDown
  | Tab
  | BackTab
  | Delete
  | Insert
  | F (n : ℕ)
  | Char (c : Char)
  | Null
  | Esc
deriving DecidableEq

/-- Embeds crossterm's `KeyEvent`: a key code plus modifier flags. -/
structure KeyEvent where
  code : KeyCode
  modifiers : ℕ
deriving DecidableEq

/-- Embeds crossterm's `MouseEvent` (kind abstracted away; only carried
through by `event_controller`, never inspected). -/
structure MouseEvent where
  column : ℕ
  row : ℕ
  modifiers : ℕ
deriving DecidableEq

/-- Embeds `GoLEvent` of `src/user_interface/components.rs`. -/
inductive GoLEvent
  | Tick
  | Input (k : KeyEvent)
  | Mouse (m : MouseEvent)
deriving DecidableEq

/-- Embeds std's `RecvError` (a unit struct). -/
inductive RecvError
  | mk
deriving DecidableEq

/-- Embeds `event_controller` of `src/user_interface/components.rs`: the
argument is the result of `rx.recv()`, whose error the `?` operator
propagates; the Rust match on `KeyCode::Char` literals is embedded as a
character test chain. -/
def event_controller (r : Except RecvError GoLEvent) : Except RecvError (Option MenuItem) :=
  match r with
  | .error e => .error e
  | .ok ev =>
      match ev with
      | .Input event =>
          match event.code with
          | .Char c =>
              if c = 'q' then .ok (some .Quit)
              else if c = 'r' then .ok (some .Run)
              else if c = 'p' then .ok (some .Preparation)
              else .ok none
          | _ => .ok none
      | .Mouse _ => .ok none
      | .Tick => .ok none

end Components

namespace Models

/-- Embeds `Coordinate` of `src/gol/models.rs` (`x, y: f64`): the scalar
type is abstracted as a parameter `F`, since the code never computes with
the components, only passes them through to the painter. -/
structure Coordinate (F : Type) where
  x : F
  y : F

/-- Embeds `Cell` of `src/gol/models.rs`. -/
structure Cell (F : Type) where
  id : ℕ
  position : Coordinate F
  neighbors : ℕ

end Models

namespace UI

/-- Embeds tui's `Color` (the variants the source uses). -/
inductive Color
  | Reset
  | White
  | Yellow
  | LightCyan
  | LightBlue
  | Red
deriving DecidableEq

/-- Embeds tui's `Painter` abstractly: `get_point` maps plane coordinates
to a viewport grid point (`none` when outside the viewport), and the
painted points are recorded in order with their colors. -/
structure Painter (F : Type) where
  getPoint : F → F → Option (ℕ × ℕ)
  painted : List (ℕ × ℕ × Color)

variable {F : Type}

/-- Embeds `Painter::paint`: record one painted point. -/
def Painter.paint (p : Painter F) (x y : ℕ) (color : Color) : Painter F :=
  { p with painted := p.painted ++ [(x, y, color)] }

/-- Embeds `Grid` of `src/user_interface/grid.rs`. -/
structure Grid (F : Type) where
  cells : List (Models.Cell F)
  color : Color

/-- Embeds `impl Default for Grid`: empty cell list and `Color::Reset`. -/
def Grid.default (F : Type) : Grid F := { cells := [], color := Color.Reset }

/-- Embeds `impl Shape for Grid`'s `draw`: for each cell in order, look up
its position via `painter.get_point` and paint it with the grid's color
when it falls inside the viewport, skipping it otherwise. -/
def Grid.draw (g : Grid F) (painter : Painter F) : Painter F :=
  g.cells.foldl
    (fun pa cell =>
      match pa.getPoint cell.position.x cell.position.y with
      | some (x, y) => pa.paint x y g.color
      | none => pa)
    painter

end UI

namespace GoL

lemma mem_neighbors {c d : ℤ × ℤ} :
    d ∈ neighbors c ↔
      d ≠ c ∧ c.1 - 1 ≤ d.1 ∧ d.1 ≤ c.1 + 1 ∧ c.2 - 1 ≤ d.2 ∧ d.2 ≤ c.2 + 1 := by
  obtain ⟨cx, cy⟩ := c
  obtain ⟨dx, dy⟩ := d
  simp only [neighbors, moore, List.map_cons, List.map_nil, List.mem_toFinset,
    List.mem_cons, List.not_mem_nil, or_false, Prod.mk.injEq, Prod.ext_iff, ne_eq,
    not_and]
  constructor
  · rintro (h | h | h | h | h | h | h | h) <;> obtain ⟨h1, h2⟩ := h <;>
      subst h1 <;> subst h2 <;> refine ⟨by intro h; omega, by omega, by omega, by omega, by omega⟩
  · rintro ⟨hne, h1, h2, h3, h4⟩
    have : ¬(dx = cx ∧ dy = cy) := by
      intro h
      exact hne h.1 h.2
    omega

lemma neighbors_comm {c d : ℤ × ℤ} : d ∈ neighbors c ↔ c ∈ neighbors d := by
  simp only [mem_neighbors, ne_eq]
  constructor <;> rintro ⟨hne, h⟩ <;>
    exact ⟨fun h2 => hne h2.symm, by omega, by omega, by omega, by omega⟩

lemma mem_candidates_of_liveNeighbors_pos {b : Board} {c : ℤ × ℤ}
    (h : 0 < liveNeighbors b c) : c ∈ candidates b := by
  obtain ⟨d, hd⟩ := Finset.card_pos.mp h
  simp only [liveNeighbors, Finset.mem_filter] at hd
  refine Finset.mem_union_right _ (Finset.mem_biUnion.mpr ⟨d, hd.2, ?_⟩)
  exact neighbors_comm.mp hd.1

end GoL

open GoL in
/-- C1: for every board B and coordinate c, c is live in step(B) iff
(c was live in B and its live-neighbor count in B is 2 or 3) or (c was dead
in B and that count is exactly 3); counts are taken against B itself, and a
cell dead in B with zero live neighbors is never live in step(B). -/
theorem step_mem_iff (b : Board) (c : ℤ × ℤ) :
    (c ∈ step b ↔
      (c ∈ b ∧ (liveNeighbors b c = 2 ∨ liveNeighbors b c = 3)) ∨
        (c ∉ b ∧ liveNeighbors b c = 3)) ∧
    ¬(c ∉ b ∧ liveNeighbors b c = 0 ∧ c ∈ step b) := by
  have hmain : c ∈ step b ↔
      (c ∈ b ∧ (liveNeighbors b c = 2 ∨ liveNeighbors b c = 3)) ∨
        (c ∉ b ∧ liveNeighbors b c = 3) := by
    unfold step
    rw [Finset.mem_filter]
    by_cases hb : c ∈ b
    · simp only [hb, if_true, true_and, not_true, false_and, or_false, iff_self_and,
        and_iff_right_iff_imp]
      intro _
      exact Finset.mem_union_left _ hb
    · simp only [hb, if_false, false_and, not_false_iff, true_and, false_or]
      constructor
      · exact fun h => h.2
      · intro h
        exact ⟨mem_candidates_of_liveNeighbors_pos (by omega), h⟩
  refine ⟨hmain, ?_⟩
  rintro ⟨hdead, hzero, hstep⟩
  rcases hmain.mp hstep with h | h
  · exact hdead h.1
  · omega

open GoL in
/-- C3: the horizontal blinker line `{(0,0),(1,0),(2,0)}` steps to the
vertical line `{(1,-1),(1,0),(1,1)}` and steps back to itself in two
generations. -/
theorem blinker_oscillates :
    step lineBoard = lineBoardVert ∧ step (step lineBoard) = lineBoard := by
  constructor <;> decide

open GoL in
/-- C5: `advance(engine, n)` produces the same Board as applying `step` n
times sequentially to the engine's Board, and increments the generation
counter by exactly n. -/
theorem advance_iterates_step (e : Engine) (n : ℕ) :
    (advance e n).board = step^[n] e.board ∧
      (advance e n).generation = e.generation + n := by
  induction n generalizing e with
  | zero => simp [advance]
  | succ n ih =>
      obtain ⟨h1, h2⟩ := ih (stepEngine e)
      refine ⟨?_, ?_⟩
      · rw [advance, h1, stepEngine, Function.iterate_succ_apply]
      · rw [advance, h2]
        simp only [stepEngine]
        omega

namespace GoL

lemma parseLinesFrom_error {input : List (List Char)}
    (h : ∃ l ∈ input, parseLine l = none) (i : ℕ) :
    ∃ m, parseLinesFrom i input = .error m := by
  induction input generalizing i with
  | nil => simp at h
  | cons l rest ih =>
      cases hl : parseLine l with
      | none => exact ⟨⟨i, l⟩, by simp [parseLinesFrom, hl]⟩
      | some c =>
          obtain ⟨l2, hl2, hbad⟩ := h
          rcases List.mem_cons.mp hl2 with rfl | hmem
          · rw [hl] at hbad
            exact absurd hbad (by simp)
          · obtain ⟨m, hm⟩ := ih ⟨l2, hmem, hbad⟩ (i + 1)
            exact ⟨m, by simp [parseLinesFrom, hl, hm, Except.map]⟩

end GoL

open GoL in
/-- C4: for every engine state and malformed pattern representation (one
with an unparsable line), `load_pattern` fails with a `MalformedPattern`
error and returns the prior engine — Board and generation counter — unchanged. -/
theorem load_pattern_malformed (e : Engine) (input : List (List Char))
    (h : ∃ l ∈ input, parseLine l = none) :
    (load_pattern e input).1 = e ∧ ((load_pattern e input).2).isSome := by
  obtain ⟨m, hm⟩ := parseLinesFrom_error h 0
  simp [load_pattern, parsePattern, hm]

open GoL in
/-- Witness for C4 at a concrete engine and a concrete malformed input. -/
theorem load_pattern_malformed_witness :
    (∃ l ∈ [['1', ',', '2'], ['x']], parseLine l = none) ∧
      ((load_pattern ⟨{((3 : ℤ), (4 : ℤ))}, 5⟩ [['1', ',', '2'], ['x']]).1 =
          ⟨{((3 : ℤ), (4 : ℤ))}, 5⟩ ∧
        ((load_pattern ⟨{((3 : ℤ), (4 : ℤ))}, 5⟩ [['1', ',', '2'], ['x']]).2).isSome) :=
  ⟨by decide, load_pattern_malformed ⟨{((3 : ℤ), (4 : ℤ))}, 5⟩ [['1', ',', '2'], ['x']] (by decide)⟩

open GoL in
/-- C7 counterexample: `toggle` is not idempotent — toggling the empty
board twice at the origin differs from toggling it once. -/
theorem toggle_not_idempotent :
    ¬(toggle (toggle (∅ : Board) ((0 : ℤ), (0 : ℤ))) ((0 : ℤ), (0 : ℤ)) =
        toggle (∅ : Board) ((0 : ℤ), (0 : ℤ))) := by
  decide

open GoL in
/-- C7 amended: `set_alive` and `set_dead` are idempotent, while `toggle`
is an involution (its own inverse, not idempotent); all three are total —
any integer coordinate is a valid argument. -/
theorem board_mutations_amended (b : Board) (c : ℤ × ℤ) :
    set_alive (set_alive b c) c = set_alive b c ∧
      set_dead (set_dead b c) c = set_dead b c ∧
      toggle (toggle b c) c = b := by
  refine ⟨by simp [set_alive], by simp [set_dead], ?_⟩
  by_cases hb : c ∈ b
  · simp [toggle, hb, Finset.mem_erase, Finset.insert_erase hb]
  · simp [toggle, hb, Finset.mem_insert, Finset.erase_insert hb]

open GoL in
/-- C6: toggling a coordinate twice restores the original liveness state of
that coordinate. -/
theorem toggle_toggle_is_alive (b : Board) (c : ℤ × ℤ) :
    is_alive (toggle (toggle b c) c) c = is_alive b c := by
  by_cases hb : c ∈ b
  · simp [toggle, is_alive, hb, Finset.mem_erase]
  · simp [toggle, is_alive, hb, Finset.mem_insert, Finset.erase_insert hb]

open MainSrc in
/-- C2 counterexample: the negation of "the integers may be negative" — no
`main.rs` Coordinate has a negative component, since both components are
unsigned 64-bit integers. -/
theorem coordinate_never_negative :
    ¬∃ c : Coordinate, ((c.x : ℤ) < 0 ∨ (c.y : ℤ) < 0) := by
  rintro ⟨c, h | h⟩ <;> omega

open MainSrc in
/-- C2 amended: a `main.rs` Coordinate is an ordered pair of unsigned
integer components (never negative), two Coordinates are equal iff both
components match, and `Coordinate::new` stores the given components. -/
theorem coordinate_pair_spec (c1 c2 : Coordinate) :
    (c1 = c2 ↔ c1.x = c2.x ∧ c1.y = c2.y) ∧
      0 ≤ (c1.x : ℤ) ∧ 0 ≤ (c1.y : ℤ) ∧
      Coordinate.new c1.x c1.y = c1 := by
  obtain ⟨x1, y1⟩ := c1
  obtain ⟨x2, y2⟩ := c2
  exact ⟨by simp, by omega, by omega, rfl⟩

/-- C10: the two `From<MenuItem> for usize` conversions are injective over
their variants and agree on the variants they share — both send
Preparation to 0, Run to 1 and Home to 2, and the components.rs version
additionally sends Quit to 3 (the equations exhibit totality). -/
theorem menu_item_usize_conversions :
    (∀ a b : MainSrc.MenuItem,
        MainSrc.menuItemToUsize a = MainSrc.menuItemToUsize b → a = b) ∧
      (∀ a b : Components.MenuItem,
        Components.menuItemToUsize a = Components.menuItemToUsize b → a = b) ∧
      MainSrc.menuItemToUsize .Preparation = 0 ∧
      MainSrc.menuItemToUsize .Run = 1 ∧
      MainSrc.menuItemToUsize .Home = 2 ∧
      Components.menuItemToUsize .Preparation = 0 ∧
      Components.menuItemToUsize .Run = 1 ∧
      Components.menuItemToUsize .Home = 2 ∧
      Components.menuItemToUsize .Quit = 3 := by
  decide

open Components in
/-- C8: `event_controller` yields Ok(Some(Quit)) iff the received event is
a key press of q, Ok(Some(Run)) iff a key press of r, Ok(Some(Preparation))
iff a key press of p; every other key event, mouse event and Tick yields
Ok(None), and the result is an error exactly when the channel receive
failed. -/
theorem event_controller_spec (r : Except RecvError GoLEvent) :
    (event_controller r = .ok (some .Quit) ↔
        ∃ k, r = .ok (.Input k) ∧ k.code = .Char 'q') ∧
      (event_controller r = .ok (some .Run) ↔
        ∃ k, r = .ok (.Input k) ∧ k.code = .Char 'r') ∧
      (event_controller r = .ok (some .Preparation) ↔
        ∃ k, r = .ok (.Input k) ∧ k.code = .Char 'p') ∧
      (∀ e, event_controller r = .error e ↔ r = .error e) ∧
      (event_controller r = .ok none ↔
        (∃ ev, r = .ok ev) ∧
          ∀ k, r = .ok (.Input k) →
            ¬(k.code = .Char 'q' ∨ k.code = .Char 'r' ∨ k.code = .Char 'p')) := by
  rcases r with e | ev
  · simp [event_controller]
  · rcases ev with _ | k | m
    · simp [event_controller]
    · obtain ⟨code, mods⟩ := k
      cases code
      case Char c =>
        by_cases hq : c = 'q'
        · subst hq
          simp +decide [event_controller]
        · by_cases hr : c = 'r'
          · subst hr
            simp +decide [event_controller]
          · by_cases hp : c = 'p'
            · subst hp
              simp +decide [event_controller]
            · simp [event_controller, hq, hr, hp]
      all_goals simp [event_controller]
    · simp [event_controller]

namespace UI

variable {F : Type}

lemma grid_draw_painted (g : Grid F) (p : Painter F) :
    Grid.draw g p =
      { getPoint := p.getPoint,
        painted := p.painted ++ g.cells.filterMap
          (fun cell => (p.getPoint cell.position.x cell.position.y).map
            (fun q => (q.1, q.2, g.color))) } := by
  obtain ⟨cells, color⟩ := g
  induction cells generalizing p with
  | nil => simp [Grid.draw]
  | cons cell rest ih =>
      have hstep : Grid.draw ⟨cell :: rest, color⟩ p =
          Grid.draw ⟨rest, color⟩
            (match p.getPoint cell.position.x cell.position.y with
             | some (x, y) => p.paint x y color
             | none => p) := rfl
      cases hg : p.getPoint cell.position.x cell.position.y with
      | none =>
          rw [hstep, hg, ih]
          simp [List.filterMap_cons, hg]
      | some q =>
          obtain ⟨x, y⟩ := q
          rw [hstep, hg, ih]
          simp [Painter.paint, List.filterMap_cons, hg]

end UI

open UI in
/-- C9: `Grid::draw` paints, in order, exactly the cells whose position the
painter maps inside the viewport, each with the grid's color; cells mapping
outside are skipped without failure, the painter's viewport mapping is
untouched, and drawing the default Grid (empty cell list) paints nothing. -/
theorem grid_draw_paints_viewport (F : Type) (g : Grid F) (p : Painter F) :
    (Grid.draw g p).painted =
        p.painted ++ g.cells.filterMap
          (fun cell => (p.getPoint cell.position.x cell.position.y).map
            (fun q => (q.1, q.2, g.color))) ∧
      (Grid.draw g p).getPoint = p.getPoint ∧
      Grid.draw (Grid.default F) p = p := by
  refine ⟨by rw [grid_draw_painted], by rw [grid_draw_painted], rfl⟩
